import Mathlib

/-!
Shallow embedding of the collaborative-piano client
(`src/lib/ws.ts`, `src/lib/game.ts`, `src/components/canvas.tsx`).

The `Game` class keeps a list `playing : string[]` of key-identity strings
`` `${key}${octave}` ``, pointer handlers that fire play/stop callbacks, and a
per-tick render pass choosing each sprite's tint.  The canvas component wires
the callbacks to a WebSocket, dispatches inbound JSON messages onto
`startPlaying` / `stopPlaying` / `setWatchers`, and reconnects with an
exponential backoff starting at 100 ms.
-/

namespace Piano

/-- Fixed palette of active-key tints (`PIANO_KEY_COLORS` in game.ts). -/
def PIANO_KEY_COLORS : List ℕ :=
  [0xe0fefe, 0xc7ceea, 0xffdac1, 0xff9aa2, 0xffffd8, 0xb5ead7]

/-- The twelve pitch classes, sharps assumed (`PIANO_KEYS` in game.ts). -/
def PIANO_KEYS : List String :=
  ["c", "c#", "d", "d#", "e", "f", "f#", "g", "g#", "a", "a#", "b"]

/-- Default key count (`private keyCount: number = 52`). -/
def keyCount : ℕ := 52

/-- Key-identity string `` `${key}${octave}` `` used for playing-set membership
and as the note passed to the synth. -/
def keyId (key : String) (octave : ℕ) : String := key ++ toString octave

/-- Result of JavaScript `Array.prototype.indexOf`: the index of the first
occurrence, or `-1` when absent. -/
def jsIndexOf : List String → String → Int
  | [], _ => -1
  | a :: as, x =>
    if a = x then 0
    else
      let r := jsIndexOf as x
      if r = -1 then -1 else r + 1

/-- Mutable state of the `Game` class relevant to the claims: the `playing`
array and the stage-level `pointerDown` flag. -/
structure GameState where
  playing : List String
  pointerDown : Bool
deriving Repr, DecidableEq

/-- State of a freshly constructed `Game` (`playing = []`,
`pointerDown = false`). -/
def initGameState : GameState := { playing := [], pointerDown := false }

/-- A callback invocation: `_onKeyPlay` or `_onKeyStop` applied to a
(pitch-class, octave) pair. -/
inductive CbEvent where
  | play (key : String) (octave : ℕ)
  | stop (key : String) (octave : ℕ)
deriving DecidableEq, Repr

/-- Audio side effects of the Tone synth (`triggerAttack` / `triggerRelease`). -/
inductive AudioAction where
  | attack (note : String)
  | release
deriving DecidableEq, Repr

/-- Game.isPlaying: `this.playing.indexOf(`${key}${octave}`) >= 0`. -/
def isPlaying (s : GameState) (key : String) (octave : ℕ) : Bool :=
  decide (0 ≤ jsIndexOf s.playing (keyId key octave))

/-- Game.onPointerDown: fire the play callback unless the key is already
marked playing.  Returns the (unchanged) state and the fired callbacks. -/
def onPointerDown (s : GameState) (key : String) (octave : ℕ) :
    GameState × List CbEvent :=
  if !(isPlaying s key octave) then (s, [CbEvent.play key octave]) else (s, [])

/-- Game.onPointerUp (also bound to `pointerupoutside` and `pointerout`):
fire the stop callback only when the key is marked playing. -/
def onPointerUp (s : GameState) (key : String) (octave : ℕ) :
    GameState × List CbEvent :=
  if isPlaying s key octave then (s, [CbEvent.stop key octave]) else (s, [])

/-- Game.onPointerOver: fire the play callback when the stage pointer is held
down and the key is not already marked playing (the slide gesture). -/
def onPointerOver (s : GameState) (key : String) (octave : ℕ) :
    GameState × List CbEvent :=
  if s.pointerDown && !(isPlaying s key octave) then
    (s, [CbEvent.play key octave])
  else (s, [])

/-- Stage handler `on('pointerdown')`: set the `pointerDown` flag. -/
def stagePointerDown (s : GameState) : GameState := { s with pointerDown := true }

/-- Stage handler `on('pointerup')`: clear the `pointerDown` flag. -/
def stagePointerUp (s : GameState) : GameState := { s with pointerDown := false }

/-- Game.startPlaying: push the key identity onto `playing` (unconditionally)
and trigger the synth attack. -/
def startPlaying (s : GameState) (key : String) (octave : ℕ) :
    GameState × List AudioAction :=
  ({ s with playing := s.playing ++ [keyId key octave] },
   [AudioAction.attack (keyId key octave)])

/-- Game.stopPlaying: `this.playing = this.playing.filter(k => k !== id)` and
trigger the synth release. -/
def stopPlaying (s : GameState) (key : String) (octave : ℕ) :
    GameState × List AudioAction :=
  ({ s with playing := s.playing.filter (fun k => k ≠ keyId key octave) },
   [AudioAction.release])

/-- Game.isBlackKey: `/\#/.test(key)`, i.e. the pitch class contains `#`. -/
def isBlackKey (key : String) : Bool := key.contains '#'

/-- Tint chosen for one sprite by the per-tick `render` pass: the sprite's
`playingColor` when its key identity is playing, else white for natural keys
and black for sharps. -/
def renderTint (s : GameState) (key : String) (octave : ℕ)
    (playingColor : ℕ) : ℕ :=
  if isPlaying s key octave then playingColor
  else if !(isBlackKey key) then 0xffffff else 0x000000

/-- The fields of a `PianoSprite` set up by Game.drawPianoKey that the layout
claims speak about: pitch class, octave, x position, width, and the assigned
active tint. -/
structure PianoKeySprite where
  key : String
  octave : ℕ
  x : ℚ
  width : ℚ
  playingColor : ℕ
deriving Repr, DecidableEq, Inhabited

/-- Game.drawPianoKey: size the key so all keys fit snugly across the view
width, place it at `width * position`, and assign the palette colour
`PIANO_KEY_COLORS[position % PIANO_KEY_COLORS.length]`.  The view width and
the key count (fields of the class) are passed explicitly. -/
def drawPianoKey (viewWidth : ℚ) (count : ℕ) (key : String) (octave : ℕ)
    (position : ℕ) : PianoKeySprite :=
  let width := viewWidth / count
  { key := key
    octave := octave
    x := width * position
    width := width
    playingColor := PIANO_KEY_COLORS.getD (position % PIANO_KEY_COLORS.length) 0 }

/-- Game.createPianoKeys: for `i < count` draw key
`PIANO_KEYS[i % PIANO_KEYS.length]` at octave `⌊i / PIANO_KEYS.length⌋ + 1`,
position `i`. -/
def createPianoKeys (viewWidth : ℚ) (count : ℕ) : List PianoKeySprite :=
  (List.range count).map fun i =>
    drawPianoKey viewWidth count (PIANO_KEYS.getD (i % PIANO_KEYS.length) "")
      (i / PIANO_KEYS.length + 1) i

/-- Inbound game events after a successful `JSON.parse` and the `switch` on
`type` (canvas.tsx): Play and Stop carry `{key, octave}`, Watchers carries a
count. -/
inductive GameEvent where
  | play (key : String) (octave : ℕ)
  | stop (key : String) (octave : ℕ)
  | watchers (count : ℕ)
deriving DecidableEq, Repr

/-- Client state owned by the canvas component: the game state plus the
displayed watcher count (`useState(1)`). -/
structure RelayState where
  game : GameState
  watchers : ℕ
deriving Repr, DecidableEq

/-- Initial relay state: fresh game, watcher count 1. -/
def initRelayState : RelayState := { game := initGameState, watchers := 1 }

/-- The `onmessage` handler: a payload that fails to parse (`none`) is caught
and logged, leaving all state unchanged; otherwise dispatch on the event
type. -/
def onmessage (parsed : Option GameEvent) (s : RelayState) :
    RelayState × List AudioAction :=
  match parsed with
  | none => (s, [])
  | some (GameEvent.play k o) =>
    let r := startPlaying s.game k o
    ({ s with game := r.1 }, r.2)
  | some (GameEvent.stop k o) =>
    let r := stopPlaying s.game k o
    ({ s with game := r.1 }, r.2)
  | some (GameEvent.watchers n) => ({ s with watchers := n }, [])

/-- Every operation that can touch client state: an inbound message (already
parsed, `none` = malformed), the per-sprite pointer handlers, and the stage
pointer handlers. -/
inductive Op where
  | msg (parsed : Option GameEvent)
  | keyDown (key : String) (octave : ℕ)
  | keyUp (key : String) (octave : ℕ)
  | keyOver (key : String) (octave : ℕ)
  | stageDown
  | stageUp
deriving DecidableEq, Repr

/-- Effect of one operation on the relay state. -/
def step (s : RelayState) : Op → RelayState
  | Op.msg p => (onmessage p s).1
  | Op.keyDown k o => { s with game := (onPointerDown s.game k o).1 }
  | Op.keyUp k o => { s with game := (onPointerUp s.game k o).1 }
  | Op.keyOver k o => { s with game := (onPointerOver s.game k o).1 }
  | Op.stageDown => { s with game := stagePointerDown s.game }
  | Op.stageUp => { s with game := stagePointerUp s.game }

/-- Run a sequence of operations from a state. -/
def run (s : RelayState) (ops : List Op) : RelayState := ops.foldl step s

/-- Is this operation the receipt of a Watchers message? -/
def isWatchersMsg : Op → Bool
  | Op.msg (some (GameEvent.watchers _)) => true
  | _ => false

/-- State of the reconnecting WebSocket client: the `reconnectBackoff` ref. -/
structure WsClientState where
  reconnectBackoff : ℕ
deriving Repr, DecidableEq

/-- Initial client state: `reconnectBackoff = useRef(100)`. -/
def initWsClientState : WsClientState := { reconnectBackoff := 100 }

/-- The `onopen` handler: reset the backoff to 100 ms. -/
def onOpen (_s : WsClientState) : WsClientState := { reconnectBackoff := 100 }

/-- The `onclose` handler: schedule a reconnect timer with the current backoff
as delay.  Returns the state and the scheduled delay. -/
def onClose (s : WsClientState) : WsClientState × ℕ := (s, s.reconnectBackoff)

/-- The reconnect timer callback: `initWs()` then double the backoff. -/
def onReconnectTimer (s : WsClientState) : WsClientState :=
  { reconnectBackoff := s.reconnectBackoff * 2 }

/-- Delays scheduled over `n` consecutive failed connection attempts: each
attempt closes (scheduling a timer with the current backoff), the timer fires
(reconnecting and doubling the backoff), and the next attempt fails again. -/
def failedReconnectDelays (s : WsClientState) : ℕ → List ℕ
  | 0 => []
  | n + 1 =>
    let r := onClose s
    r.2 :: failedReconnectDelays (onReconnectTimer r.1) n

/-! Helper lemmas -/

/-- jsIndexOf is `-1` or nonnegative. -/
theorem jsIndexOf_neg_one_or_nonneg (l : List String) (x : String) :
    jsIndexOf l x = -1 ∨ 0 ≤ jsIndexOf l x := by
  induction l with
  | nil => exact Or.inl rfl
  | cons a as ih =>
    by_cases hax : a = x
    · right; simp [jsIndexOf, hax]
    · rcases ih with h | h
      · left; simp [jsIndexOf, hax, h]
      · right
        have hne : jsIndexOf as x ≠ -1 := by omega
        simp only [jsIndexOf, if_neg hax, if_neg hne]
        omega

/-- jsIndexOf returns `-1` exactly when the element is absent. -/
theorem jsIndexOf_eq_neg_one_iff (l : List String) (x : String) :
    jsIndexOf l x = -1 ↔ x ∉ l := by
  induction l with
  | nil => simp [jsIndexOf]
  | cons a as ih =>
    by_cases hax : a = x
    · simp [jsIndexOf, hax]
    · rcases jsIndexOf_neg_one_or_nonneg as x with h | h
      · simp only [jsIndexOf, if_neg hax, h, if_pos rfl]
        constructor
        · intro _
          simp only [List.mem_cons, not_or]
          exact ⟨fun hxa => hax hxa.symm, ih.mp h⟩
        · intro _; rfl
      · have hne : jsIndexOf as x ≠ -1 := by omega
        simp only [jsIndexOf, if_neg hax, if_neg hne]
        constructor
        · intro hc; omega
        · intro hnotin
          exact absurd (ih.mpr (fun hmem => hnotin (List.mem_cons_of_mem a hmem))) hne

/-- jsIndexOf is nonnegative exactly when the element is present. -/
theorem jsIndexOf_nonneg_iff_mem (l : List String) (x : String) :
    0 ≤ jsIndexOf l x ↔ x ∈ l := by
  rcases jsIndexOf_neg_one_or_nonneg l x with h | h
  · simp only [h]
    constructor
    · intro hc; omega
    · intro hmem
      exact absurd ((jsIndexOf_eq_neg_one_iff l x).mp h) (not_not_intro hmem)
  · simp only [h, iff_true_intro h, true_iff]
    by_contra hnot
    have := (jsIndexOf_eq_neg_one_iff l x).mpr hnot
    omega

/-- isPlaying tests membership of the key identity in the playing list. -/
theorem isPlaying_iff_mem (s : GameState) (key : String) (octave : ℕ) :
    isPlaying s key octave = true ↔ keyId key octave ∈ s.playing := by
  simp [isPlaying, jsIndexOf_nonneg_iff_mem]

/-- isPlaying is false exactly when the key identity is absent. -/
theorem isPlaying_eq_false_iff (s : GameState) (key : String) (octave : ℕ) :
    isPlaying s key octave = false ↔ keyId key octave ∉ s.playing := by
  rw [← isPlaying_iff_mem]
  cases isPlaying s key octave <;> simp

/-- onPointerDown never mutates the game state. -/
theorem onPointerDown_fst (s : GameState) (key : String) (octave : ℕ) :
    (onPointerDown s key octave).1 = s := by
  unfold onPointerDown; split <;> rfl

/-- onPointerUp never mutates the game state. -/
theorem onPointerUp_fst (s : GameState) (key : String) (octave : ℕ) :
    (onPointerUp s key octave).1 = s := by
  unfold onPointerUp; split <;> rfl

/-- onPointerOver never mutates the game state. -/
theorem onPointerOver_fst (s : GameState) (key : String) (octave : ℕ) :
    (onPointerOver s key octave).1 = s := by
  unfold onPointerOver; split <;> rfl

/-! Claim theorems -/

/-- C4: onPointerDown invokes the play callback exactly when the key identity
is not already in the playing set; pressing an already-playing key re-fires
nothing. -/
theorem onPointerDown_fires_iff_not_playing (s : GameState) (key : String)
    (octave : ℕ) :
    (onPointerDown s key octave).2 =
      if keyId key octave ∈ s.playing then [] else [CbEvent.play key octave] := by
  by_cases h : keyId key octave ∈ s.playing
  · have hp := (isPlaying_iff_mem s key octave).mpr h
    simp [onPointerDown, hp, h]
  · have hp := (isPlaying_eq_false_iff s key octave).mpr h
    simp [onPointerDown, hp, h]

/-- C9: onPointerOver invokes the play callback exactly when the stage
pointer button is held down and the key identity is not already in the
playing set (the slide gesture); otherwise nothing fires. -/
theorem onPointerOver_fires_iff_slide (s : GameState) (key : String)
    (octave : ℕ) :
    (onPointerOver s key octave).2 =
      if s.pointerDown = true ∧ keyId key octave ∉ s.playing then
        [CbEvent.play key octave]
      else [] := by
  by_cases hm : keyId key octave ∈ s.playing
  · have hp := (isPlaying_iff_mem s key octave).mpr hm
    cases hd : s.pointerDown <;> simp [onPointerOver, hp, hm, hd]
  · have hp := (isPlaying_eq_false_iff s key octave).mpr hm
    cases hd : s.pointerDown <;> simp [onPointerOver, hp, hm, hd]

/-- C8: the tint chosen by the render pass is the key's assigned active
colour exactly when its key identity is in the playing set, and otherwise
the resting colour: black exactly when the pitch class contains a `#`,
white otherwise. -/
theorem renderTint_active_or_resting (s : GameState) (key : String)
    (octave : ℕ) (playingColor : ℕ) :
    renderTint s key octave playingColor =
      if keyId key octave ∈ s.playing then playingColor
      else if key.contains '#' then 0x000000 else 0xffffff := by
  by_cases hm : keyId key octave ∈ s.playing
  · have hp := (isPlaying_iff_mem s key octave).mpr hm
    simp [renderTint, hp, hm]
  · have hp := (isPlaying_eq_false_iff s key octave).mpr hm
    cases hb : key.contains '#' <;> simp [renderTint, isBlackKey, hp, hm, hb]

/-- C6: an inbound message whose payload fails to parse is dropped: the
handler returns with the playing set, the watcher count and every other
piece of client state unchanged, and performs no audio action. -/
theorem onmessage_malformed_noop (s : RelayState) :
    onmessage none s = (s, []) := rfl

/-- C5: receiving a Stop event for a key identity not currently in the
playing set leaves the whole client state (playing set and watcher count)
unchanged. -/
theorem stop_not_playing_noop (s : RelayState) (key : String) (octave : ℕ)
    (h : keyId key octave ∉ s.game.playing) :
    (onmessage (some (GameEvent.stop key octave)) s).1 = s := by
  have hfilter :
      s.game.playing.filter (fun k => k ≠ keyId key octave) = s.game.playing := by
    rw [List.filter_eq_self]
    intro a ha
    have hne : a ≠ keyId key octave := fun he => h (he ▸ ha)
    exact decide_eq_true hne
  show ({ s with game := (stopPlaying s.game key octave).1 } : RelayState) = s
  simp only [stopPlaying]
  rw [hfilter]

/-- Witness for C5 at a concrete input: "c4" is not playing initially and
the Stop event leaves the initial state unchanged. -/
theorem stop_not_playing_noop_witness :
    keyId "c" 4 ∉ initRelayState.game.playing ∧
      (onmessage (some (GameEvent.stop "c" 4)) initRelayState).1 = initRelayState :=
  ⟨by decide, stop_not_playing_noop initRelayState "c" 4 (by decide)⟩

/-- C1 counterexample: from the initial state, onPointerDown("c",4) then
onPointerUp("c",4) with no intervening remote events fires exactly one play
callback and ZERO stop callbacks — not one, as claimed.  The playing set is
mutated only by `startPlaying` (driven by inbound messages), so at pointer-up
the key is still not marked playing and the stop callback's guard fails. -/
theorem press_release_stop_never_fires :
    (onPointerDown initGameState "c" 4).2 ++
        (onPointerUp (onPointerDown initGameState "c" 4).1 "c" 4).2 =
      [CbEvent.play "c" 4] ∧
    ((onPointerDown initGameState "c" 4).2 ++
        (onPointerUp (onPointerDown initGameState "c" 4).1 "c" 4).2).count
        (CbEvent.stop "c" 4) = 0 ∧
    ¬ ((onPointerDown initGameState "c" 4).2 ++
        (onPointerUp (onPointerDown initGameState "c" 4).1 "c" 4).2).count
        (CbEvent.stop "c" 4) = 1 := by decide

/-- C1 amended: for a key identity not in the playing set, onPointerDown
then onPointerUp with no intervening remote events leaves the key out of the
playing set and fires exactly one play callback and zero stop callbacks
(the callback sequence is exactly one play event). -/
theorem press_release_local (s : GameState) (key : String) (octave : ℕ)
    (h : keyId key octave ∉ s.playing) :
    keyId key octave ∉ (onPointerUp (onPointerDown s key octave).1 key octave).1.playing ∧
    (onPointerDown s key octave).2 ++
        (onPointerUp (onPointerDown s key octave).1 key octave).2 =
      [CbEvent.play key octave] := by
  have hp := (isPlaying_eq_false_iff s key octave).mpr h
  constructor
  · rw [onPointerUp_fst, onPointerDown_fst]
    exact h
  · rw [onPointerDown_fst]
    simp [onPointerDown, onPointerUp, hp]

/-- Witness for C1's amended theorem at the initial state and key "c", 4. -/
theorem press_release_local_witness :
    keyId "c" 4 ∉ initGameState.playing ∧
      (keyId "c" 4 ∉ (onPointerUp (onPointerDown initGameState "c" 4).1 "c" 4).1.playing ∧
        (onPointerDown initGameState "c" 4).2 ++
            (onPointerUp (onPointerDown initGameState "c" 4).1 "c" 4).2 =
          [CbEvent.play "c" 4]) :=
  ⟨by decide, press_release_local initGameState "c" 4 (by decide)⟩

/-- C2 counterexample: startPlaying does not preserve the at-most-once
invariant.  From the initial state, one startPlaying("c",4) yields a playing
set satisfying the invariant (one occurrence of "c4"), but a second
startPlaying("c",4) — e.g. the echo of a second remote Play event — pushes a
duplicate: "c4" then occurs twice. -/
theorem startPlaying_duplicate :
    (startPlaying initGameState "c" 4).1.playing.count (keyId "c" 4) = 1 ∧
    (startPlaying (startPlaying initGameState "c" 4).1 "c" 4).1.playing.count
        (keyId "c" 4) = 2 ∧
    ¬ (startPlaying (startPlaying initGameState "c" 4).1 "c" 4).1.playing.count
        (keyId "c" 4) ≤ 1 := by decide

/-- C2 amended: stopPlaying removes all occurrences of the key identity and
leaves the multiplicity of every other entry unchanged, and the pointer
handlers never mutate the playing set; but the at-most-once part of the
invariant is not preserved by startPlaying, which appends unconditionally. -/
theorem stopPlaying_removes_all (s : GameState) (key : String) (octave : ℕ) :
    (stopPlaying s key octave).1.playing.count (keyId key octave) = 0 ∧
    (∀ x : String, x ≠ keyId key octave →
      (stopPlaying s key octave).1.playing.count x = s.playing.count x) ∧
    (onPointerDown s key octave).1.playing = s.playing ∧
    (onPointerUp s key octave).1.playing = s.playing ∧
    (onPointerOver s key octave).1.playing = s.playing := by
  refine ⟨?_, ?_, ?_, ?_, ?_⟩
  · rw [List.count_eq_zero]
    intro hmem
    have := (List.mem_filter.mp hmem).2
    simp at this
  · intro x hx
    show (s.playing.filter (fun k => k ≠ keyId key octave)).count x = s.playing.count x
    exact List.count_filter (decide_eq_true hx)
  · rw [onPointerDown_fst]
  · rw [onPointerUp_fst]
  · rw [onPointerOver_fst]

/-- Witness for C2's amended theorem: stopping "c4" in a playing set holding
two copies of "c4" and one "d5" removes both copies and keeps "d5". -/
theorem stopPlaying_removes_all_witness :
    (stopPlaying ⟨["c4", "d5", "c4"], false⟩ "c" 4).1.playing.count (keyId "c" 4) = 0 ∧
    ("d5" ≠ keyId "c" 4 ∧
      (stopPlaying ⟨["c4", "d5", "c4"], false⟩ "c" 4).1.playing.count "d5" =
        (GameState.mk ["c4", "d5", "c4"] false).playing.count "d5") :=
  ⟨(stopPlaying_removes_all ⟨["c4", "d5", "c4"], false⟩ "c" 4).1,
   by decide,
   (stopPlaying_removes_all ⟨["c4", "d5", "c4"], false⟩ "c" 4).2.1 "d5" (by decide)⟩

/-- Closed form of the scheduled reconnect delays for consecutive failures
starting from backoff `b`. -/
theorem failedReconnectDelays_formula (b n : ℕ) :
    failedReconnectDelays ⟨b⟩ n = (List.range n).map (fun i => b * 2 ^ i) := by
  induction n generalizing b with
  | zero => rfl
  | succ n ih =>
    have step1 : failedReconnectDelays ⟨b⟩ (n + 1) =
        b :: failedReconnectDelays ⟨b * 2⟩ n := rfl
    rw [step1, ih, List.range_succ_eq_map, List.map_cons, List.map_map]
    have harg : ∀ i : ℕ, b * 2 * 2 ^ i = b * 2 ^ (i + 1) := by
      intro i; ring
    simp [Function.comp, harg]

/-- C3: the exponential reconnect backoff.  The initial backoff is 100 ms, a
successful open resets it to 100 ms regardless of the prior value, and the
delays scheduled over `n` consecutive failed attempts after an open are
100, 200, 400, …, i.e. `100 * 2 ^ i` for the i-th attempt, with no cap. -/
theorem reconnect_backoff_sequence (s : WsClientState) (n : ℕ) :
    initWsClientState.reconnectBackoff = 100 ∧
    (onOpen s).reconnectBackoff = 100 ∧
    failedReconnectDelays (onOpen s) n =
      (List.range n).map (fun i => 100 * 2 ^ i) :=
  ⟨rfl, rfl, failedReconnectDelays_formula 100 n⟩

/-- C7: deterministic key layout.  With `count` keys (the class default is
52) over a view of width `W`, key `i` gets pitch class
`PIANO_KEYS[i % 12]`, octave `⌊i / 12⌋ + 1`, x-position `i * (W / count)`
with per-key width `W / count` (so keys tile the width with equal spacing),
and active tint `PIANO_KEY_COLORS[i % 6]`. -/
theorem layout_deterministic (W : ℚ) (count i : ℕ) (h : i < count) :
    keyCount = 52 ∧
    (createPianoKeys W count).length = count ∧
    (createPianoKeys W count).getD i default =
      { key := PIANO_KEYS.getD (i % 12) ""
        octave := i / 12 + 1
        x := (i : ℚ) * (W / count)
        width := W / count
        playingColor := PIANO_KEY_COLORS.getD (i % 6) 0 } := by
  refine ⟨rfl, by simp [createPianoKeys], ?_⟩
  have hlen : (createPianoKeys W count).length = count := by simp [createPianoKeys]
  have hget : (createPianoKeys W count)[i]? =
      some (drawPianoKey W count (PIANO_KEYS.getD (i % PIANO_KEYS.length) "")
        (i / PIANO_KEYS.length + 1) i) := by
    simp [createPianoKeys, List.getElem?_map, List.getElem?_range h]
  rw [List.getD_eq_getElem?_getD, hget]
  show drawPianoKey W count (PIANO_KEYS.getD (i % PIANO_KEYS.length) "")
      (i / PIANO_KEYS.length + 1) i = _
  have h12 : PIANO_KEYS.length = 12 := rfl
  have h6 : PIANO_KEY_COLORS.length = 6 := rfl
  rw [drawPianoKey, h12, h6]
  simp [mul_comm]

/-- Witness for C7 at width 520, the default count 52, and index 13
(pitch class "c#", octave 2, second palette colour). -/
theorem layout_deterministic_witness :
    13 < 52 ∧
      (keyCount = 52 ∧
        (createPianoKeys 520 52).length = 52 ∧
        (createPianoKeys 520 52).getD 13 default =
          { key := PIANO_KEYS.getD (13 % 12) ""
            octave := 13 / 12 + 1
            x := (13 : ℚ) * (520 / 52)
            width := (520 : ℚ) / 52
            playingColor := PIANO_KEY_COLORS.getD (13 % 6) 0 }) :=
  ⟨by decide, layout_deterministic 520 52 13 (by decide)⟩

/-- One operation that is not the receipt of a Watchers message leaves the
watcher count unchanged. -/
theorem step_preserves_watchers (s : RelayState) (op : Op)
    (h : isWatchersMsg op = false) : (step s op).watchers = s.watchers := by
  cases op with
  | msg p =>
    cases p with
    | none => rfl
    | some ev =>
      cases ev with
      | play k o => rfl
      | stop k o => rfl
      | watchers n => simp [isWatchersMsg] at h
  | keyDown k o => rfl
  | keyUp k o => rfl
  | keyOver k o => rfl
  | stageDown => rfl
  | stageUp => rfl

/-- A run with no Watchers message leaves the watcher count unchanged. -/
theorem run_preserves_watchers (ops : List Op) :
    ∀ s : RelayState, (∀ op ∈ ops, isWatchersMsg op = false) →
      (run s ops).watchers = s.watchers := by
  induction ops with
  | nil => intro s _; rfl
  | cons a as ih =>
    intro s hl
    have ha := hl a (List.mem_cons_self a as)
    have has : ∀ op ∈ as, isWatchersMsg op = false := fun op hop =>
      hl op (List.mem_cons_of_mem a hop)
    show (run (step s a) as).watchers = s.watchers
    rw [ih (step s a) has, step_preserves_watchers s a ha]

/-- C10: the displayed watcher count starts at 1 and is still 1 after any
sequence of operations that contains no Watchers message (pointer handlers,
Play/Stop dispatch and malformed messages never touch it). -/
theorem watchers_initially_one (ops : List Op)
    (h : ∀ op ∈ ops, isWatchersMsg op = false) :
    initRelayState.watchers = 1 ∧ (run initRelayState ops).watchers = 1 :=
  ⟨rfl, run_preserves_watchers ops initRelayState h⟩

/-- Witness for C10 on a concrete run: a remote Play, stage pointer down, a
malformed message, a local key press and a remote Stop leave the count at 1. -/
theorem watchers_initially_one_witness :
    (∀ op ∈ [Op.msg (some (GameEvent.play "c" 4)), Op.stageDown,
        Op.msg none, Op.keyDown "d" 2, Op.msg (some (GameEvent.stop "c" 4))],
      isWatchersMsg op = false) ∧
    (initRelayState.watchers = 1 ∧
      (run initRelayState
        [Op.msg (some (GameEvent.play "c" 4)), Op.stageDown,
          Op.msg none, Op.keyDown "d" 2,
          Op.msg (some (GameEvent.stop "c" 4))]).watchers = 1) :=
  ⟨by decide,
   watchers_initially_one
     [Op.msg (some (GameEvent.play "c" 4)), Op.stageDown,
       Op.msg none, Op.keyDown "d" 2, Op.msg (some (GameEvent.stop "c" 4))]
     (by decide)⟩

end Piano
